import Mathlib

/-!
Verification of the smart-queue store (auto-queue and radio mode) of the
audiio desktop application.  The definitions below are a shallow embedding of
the renderer store found in the repository (smart-queue store module):
numbers that are IEEE doubles in the source are modelled as rationals,
JavaScript `undefined` is modelled with `Option`, records indexed by string
keys are modelled as association lists, and the zustand store state is an
explicit state record threaded through the actions.
-/

namespace SmartQueue

/-- Artist reference on a track.  The source field `id` is optional; the
empty string models a missing or falsy id, matching the truthiness tests
(`a.id || a.name`) of the source. -/
structure Artist where
  id : String
  name : String
deriving DecidableEq, Repr

/-- Audio feature snapshot (`Partial<AudioFeatures>`): every field may be
undefined. -/
structure AudioFeatureSet where
  bpm : Option ℚ
  energy : Option ℚ
  key : Option String
  valence : Option ℚ
deriving DecidableEq, Repr

/-- The slice of `UnifiedTrack` the smart-queue store reads: id, title,
artists, genres and optional audio features.  A missing `genres` array
behaves exactly like an empty one in every use site of this module
(`track.genres?.some(...)`), so it is modelled as a plain list. -/
structure UnifiedTrack where
  id : String
  title : String
  artists : List Artist
  genres : List String
  audioFeatures : Option AudioFeatureSet
deriving DecidableEq, Repr

/-- Queue mode of the store: `manual`, `auto-queue` or `radio`. -/
inductive QueueMode where
  | manual
  | autoQueue
  | radio
deriving DecidableEq, Repr

/-- Radio seed type: `track`, `artist` or `genre`. -/
inductive RadioSeedType where
  | track
  | artist
  | genre
deriving DecidableEq, Repr

/-- Radio seed.  `genres` and `artistIds` are optional arrays in the source
(`seed.genres?.some`, `seed.artistIds?.some`), which behave exactly like
empty arrays, so they are modelled as lists; `audioFeatures` truthiness is
significant and is modelled as an `Option`. -/
structure RadioSeed where
  type : RadioSeedType
  id : String
  name : String
  genres : List String
  artistIds : List String
  audioFeatures : Option AudioFeatureSet
deriving DecidableEq, Repr

/-- SmartQueueConfig of the source. -/
structure SmartQueueConfig where
  autoQueueEnabled : Bool
  autoQueueThreshold : ℕ
  autoQueueBatchSize : ℕ
  limitArtistRepetition : Bool
  maxArtistPerBatch : ℕ
  useMLRecommendations : Bool
deriving DecidableEq, Repr

/-- RadioConfig of the source. -/
structure RadioConfig where
  seedWeight : ℚ
  diversityFactor : ℚ
  progressiveDrift : Bool
deriving DecidableEq, Repr

/-- SessionHistory of the source.  Times are epoch milliseconds. -/
structure SessionHistory where
  playedTrackIds : List String
  playedArtistIds : List String
  sessionStartTime : ℕ
deriving DecidableEq, Repr

/-- DEFAULT_CONFIG of the source. -/
def DEFAULT_CONFIG : SmartQueueConfig :=
  { autoQueueEnabled := false
    autoQueueThreshold := 2
    autoQueueBatchSize := 10
    limitArtistRepetition := true
    maxArtistPerBatch := 2
    useMLRecommendations := true }

/-- DEFAULT_RADIO_CONFIG of the source. -/
def DEFAULT_RADIO_CONFIG : RadioConfig :=
  { seedWeight := 0.7
    diversityFactor := 0.3
    progressiveDrift := true }

/-- MIN_FETCH_INTERVAL_MS of the source (5000 ms). -/
def MIN_FETCH_INTERVAL_MS : ℕ := 5000

/-- MAX_SESSION_HISTORY of the source (200 entries). -/
def MAX_SESSION_HISTORY : ℕ := 200

/-- SESSION_TIMEOUT_MS of the source (4 hours in milliseconds). -/
def SESSION_TIMEOUT_MS : ℕ := 4 * 60 * 60 * 1000

/-- KEY_POSITIONS of the source: Circle-of-Fifths position of each musical
key, majors first, then the minor keys parallel to them.  The source is a
string-indexed record; it is embedded as an association list. -/
def KEY_POSITIONS : List (String × ℕ) :=
  [("C", 0), ("G", 1), ("D", 2), ("A", 3), ("E", 4), ("B", 5),
   ("F#", 6), ("Gb", 6), ("C#", 7), ("Db", 7), ("Ab", 8), ("G#", 8),
   ("Eb", 9), ("D#", 9), ("Bb", 10), ("A#", 10), ("F", 11),
   ("Am", 0), ("Em", 1), ("Bm", 2), ("F#m", 3), ("C#m", 4), ("G#m", 5),
   ("D#m", 6), ("Ebm", 6), ("A#m", 7), ("Bbm", 7), ("Fm", 8),
   ("Cm", 9), ("Gm", 10), ("Dm", 11)]

/-- Record lookup `KEY_POSITIONS[key]` of the source. -/
def keyPosition (key : String) : Option ℕ :=
  KEY_POSITIONS.lookup key

/-- calculateKeyCompatibility of the source.  An undefined key yields the
neutral value 0.5 (an empty-string key is falsy in the source and also
yields 0.5; it is not in the table, so the lookup branch returns the same
value).  The distance is computed on integers exactly as the source does on
numbers. -/
def calculateKeyCompatibility (key1 key2 : Option String) : ℚ :=
  match key1, key2 with
  | some k1, some k2 =>
    match keyPosition k1, keyPosition k2 with
    | some p1, some p2 =>
      let d : ℤ := |(p1 : ℤ) - (p2 : ℤ)|
      let distance : ℤ := min d (12 - d)
      max 0 (1 - (distance : ℚ) * 0.2)
    | _, _ => 0.5
  | _, _ => 0.5

/-- Modelled from the spec wording of the key-distance: the minimum of the
clockwise and the counterclockwise step counts between two of the 12
Circle-of-Fifths positions. -/
def circleDistanceSpec (p1 p2 : ℕ) : ℤ :=
  min (((p2 : ℤ) - (p1 : ℤ)) % 12) (((p1 : ℤ) - (p2 : ℤ)) % 12)

/-- Helper for the embedding of JavaScript `String.prototype.includes`:
test that the first character list is an initial segment of the second. -/
def charListStarts : List Char → List Char → Bool
  | [], _ => true
  | _ :: _, [] => false
  | c :: cs, d :: ds => c == d && charListStarts cs ds

/-- Helper for the embedding of JavaScript `String.prototype.includes`:
test that the needle occurs contiguously inside the haystack. -/
def charListIncl (needle : List Char) : List Char → Bool
  | [] => charListStarts needle []
  | hay@(_ :: rest) => charListStarts needle hay || charListIncl needle rest

/-- JavaScript `hay.includes(needle)`. -/
def jsIncludes (hay needle : String) : Bool :=
  charListIncl needle.toList hay.toList

/-- JavaScript `s.toLowerCase()` on the character list of the string (the
same per-character lowercasing as the standard library, written over the
list so that it evaluates by kernel reduction). -/
def jsToLower (s : String) : String :=
  String.mk (s.data.map Char.toLower)

/-- Artist-id matching of the source for a track seed:
`seed.artistIds?.some(id => track.artists.some(a => a.id === id || a.name.toLowerCase() === id.toLowerCase()))`. -/
def seedArtistMatch (track : UnifiedTrack) (ids : List String) : Bool :=
  ids.any fun i => track.artists.any fun a => a.id == i || jsToLower a.name == jsToLower i

/-- Genre matching of the source:
`seed.genres?.some(g => track.genres?.some(tg => tg.toLowerCase().includes(g.toLowerCase())))`. -/
def seedGenreMatch (track : UnifiedTrack) (genres : List String) : Bool :=
  genres.any fun g => track.genres.any fun tg => jsIncludes (jsToLower tg) (jsToLower g)

/-- The metadata part of calculateSeedRelevance of the source: the switch on
the seed type that adds the artist and genre match points. -/
def metadataRelevance (track : UnifiedTrack) (seed : RadioSeed) : ℚ :=
  match seed.type with
  | RadioSeedType.track =>
    (if seedArtistMatch track seed.artistIds then 30 else 0) +
    (if seedGenreMatch track seed.genres then 20 else 0)
  | RadioSeedType.artist =>
    (if track.artists.any (fun a => a.id == seed.id || jsToLower a.name == jsToLower seed.name)
      then 50 else 0) +
    (if seedGenreMatch track seed.genres then 20 else 0)
  | RadioSeedType.genre =>
    if track.genres.any (fun g =>
        jsIncludes (jsToLower g) (jsToLower seed.id) || jsIncludes (jsToLower seed.id) (jsToLower g))
      then 60 else 0

/-- BPM component of the audio bonus of calculateSeedRelevance, for a seed
and a track that both have a defined bpm. -/
def bpmBonus (seedBpm trackBpm : ℚ) : ℚ :=
  let bpmDiff := |seedBpm - trackBpm|
  let bpmRatio := min (bpmDiff / seedBpm) 1
  if bpmRatio ≤ 0.1 then 12
  else if bpmRatio ≤ 0.2 then 8
  else if bpmRatio ≤ 0.3 then 4
  else 0

/-- Energy component of the audio bonus of calculateSeedRelevance. -/
def energyBonus (seedEnergy trackEnergy : ℚ) : ℚ :=
  let energyDiff := |seedEnergy - trackEnergy|
  if energyDiff ≤ 0.15 then 12
  else if energyDiff ≤ 0.25 then 8
  else if energyDiff ≤ 0.35 then 4
  else 0

/-- Valence component of the audio bonus of calculateSeedRelevance. -/
def valenceBonus (seedValence trackValence : ℚ) : ℚ :=
  let valenceDiff := |seedValence - trackValence|
  if valenceDiff ≤ 0.2 then 6
  else if valenceDiff ≤ 0.35 then 3
  else 0

/-- Feature record with every field undefined: `track.audioFeatures || {}`. -/
def emptyFeatures : AudioFeatureSet := ⟨none, none, none, none⟩

/-- Audio-feature bonus block of calculateSeedRelevance of the source, run
when the seed has an audio-feature snapshot.  Each component contributes
only when both sides define the feature. -/
def audioBonus (track : UnifiedTrack) (seedFeatures : AudioFeatureSet) : ℚ :=
  let trackFeatures := track.audioFeatures.getD emptyFeatures
  (match seedFeatures.bpm, trackFeatures.bpm with
   | some sb, some tb => bpmBonus sb tb
   | _, _ => 0) +
  (match seedFeatures.energy, trackFeatures.energy with
   | some se, some te => energyBonus se te
   | _, _ => 0) +
  (match seedFeatures.key, trackFeatures.key with
   | some sk, some tk => ((round (calculateKeyCompatibility (some sk) (some tk) * 10) : ℤ) : ℚ)
   | _, _ => 0) +
  (match seedFeatures.valence, trackFeatures.valence with
   | some sv, some tv => valenceBonus sv tv
   | _, _ => 0)

/-- calculateSeedRelevance of the source: metadata points plus the audio
bonus, capped at 100. -/
def calculateSeedRelevance (track : UnifiedTrack) (seed : RadioSeed) : ℚ :=
  let relevance := metadataRelevance track seed +
    (match seed.audioFeatures with
     | some sf => audioBonus track sf
     | none => 0)
  min 100 relevance

/-- Main-artist key of a track as the diversity filter computes it:
`track.artists[0]?.name?.toLowerCase() || 'unknown'` (an empty lowercased
name is falsy and also yields "unknown"). -/
def mainArtistKey (t : UnifiedTrack) : String :=
  match t.artists with
  | [] => "unknown"
  | a :: _ => if jsToLower a.name = "" then "unknown" else jsToLower a.name

/-- Number of tracks of a list whose main-artist key is the given string. -/
def artistCount (l : List UnifiedTrack) (a : String) : ℕ :=
  (l.map mainArtistKey).count a

/-- The for-loop of applyDiversityFilter of the source: walk the candidate
list, select a track when its main artist is still under the cap, and stop
as soon as the limit is reached.  The artist-count map is threaded
explicitly. -/
def diversityLoop (limit maxPerArtist : ℕ) :
    List UnifiedTrack → List UnifiedTrack → (String → ℕ) → List UnifiedTrack
  | [], result, _ => result
  | t :: ts, result, artistCounts =>
    if limit ≤ result.length then result
    else
      let mainArtist := mainArtistKey t
      let c := artistCounts mainArtist
      if c < maxPerArtist then
        diversityLoop limit maxPerArtist ts (result ++ [t])
          (fun a => if a = mainArtist then c + 1 else artistCounts a)
      else
        diversityLoop limit maxPerArtist ts result artistCounts

/-- The cap-respecting pass of applyDiversityFilter, started with an empty
result and an empty artist-count map. -/
def diversityPass (tracks : List UnifiedTrack) (limit maxPerArtist : ℕ) : List UnifiedTrack :=
  diversityLoop limit maxPerArtist tracks [] (fun _ => 0)

/-- applyDiversityFilter of the source: the cap-respecting pass followed by
the back-fill step that appends leftover tracks, regardless of the artist
cap, when the pass filled fewer than `limit` slots. -/
def applyDiversityFilter (tracks : List UnifiedTrack) (limit maxPerArtist : ℕ) :
    List UnifiedTrack :=
  if tracks = [] then []
  else
    let result := diversityPass tracks limit maxPerArtist
    if result.length < limit then
      let remaining := tracks.filter fun t => decide (t ∉ result)
      result ++ remaining.take (limit - result.length)
    else result

/-- State slice of the zustand store that the verified actions touch. -/
structure SmartQueueState where
  mode : QueueMode
  radioSeed : Option RadioSeed
  radioTracksPlayed : ℕ
  sessionHistory : SessionHistory
  isAutoQueueFetching : Bool
  lastAutoQueueFetch : ℕ
  autoQueueError : Option String
  consecutiveFailures : ℕ
  config : SmartQueueConfig
  radioConfig : RadioConfig
deriving DecidableEq, Repr

/-- clearSession of the source: empty the played track and artist lists,
renew the session start time and reset the radio played counter. -/
def clearSession (now : ℕ) (s : SmartQueueState) : SmartQueueState :=
  { s with
    sessionHistory :=
      { playedTrackIds := [], playedArtistIds := [], sessionStartTime := now }
    radioTracksPlayed := 0 }

/-- resetSession of the source: clear the session when more than
SESSION_TIMEOUT_MS elapsed since the recorded session start time. -/
def resetSession (now : ℕ) (s : SmartQueueState) : SmartQueueState :=
  if SESSION_TIMEOUT_MS < now - s.sessionHistory.sessionStartTime then
    clearSession now s
  else s

/-- JavaScript `array.slice(-n)` for positive `n`: the last `min n length`
elements. -/
def sliceLast (n : ℕ) (l : List α) : List α :=
  l.drop (l.length - n)

/-- Artist key stored in the session history: `a.id || a.name` (an empty id
is falsy). -/
def artistHistoryKey (a : Artist) : String :=
  if a.id = "" then a.name else a.id

/-- recordTrackPlayed of the source: append the track id and its artist keys
to the session history, trim the lists to the last 200 and 400 entries, and
bump the radio counter in radio mode. -/
def recordTrackPlayed (track : UnifiedTrack) (s : SmartQueueState) : SmartQueueState :=
  let newPlayedTrackIds := s.sessionHistory.playedTrackIds ++ [track.id]
  let newPlayedArtistIds :=
    s.sessionHistory.playedArtistIds ++ track.artists.map artistHistoryKey
  { s with
    sessionHistory :=
      { s.sessionHistory with
        playedTrackIds := sliceLast MAX_SESSION_HISTORY newPlayedTrackIds
        playedArtistIds := sliceLast (MAX_SESSION_HISTORY * 2) newPlayedArtistIds }
    radioTracksPlayed :=
      if s.mode = QueueMode.radio then s.radioTracksPlayed + 1 else s.radioTracksPlayed }

/-- Guard chain of checkAndReplenish of the source, deciding whether a fetch
is initiated.  `queueLen` and `queueIndex` come from the player store; the
remaining-track count is computed on integers exactly as the source does on
numbers. -/
def replenishShouldFetch (s : SmartQueueState) (now queueLen queueIndex : ℕ) : Bool :=
  if s.mode = QueueMode.manual then false
  else if !s.config.autoQueueEnabled && decide (s.mode ≠ QueueMode.radio) then false
  else if s.isAutoQueueFetching then false
  else if now - s.lastAutoQueueFetch < MIN_FETCH_INTERVAL_MS then false
  else decide ((queueLen : ℤ) - (queueIndex : ℤ) - 1 ≤ (s.config.autoQueueThreshold : ℤ))

/-- checkAndReplenish of the source, with the awaited fetchMoreTracks result
passed in as `fetched`.  Returns the updated state and the tracks added to
the queue.  The transient `isAutoQueueFetching := true` set before the await
is folded into the atomic step; both completion branches leave it false. -/
def checkAndReplenish (s : SmartQueueState) (now queueLen queueIndex : ℕ)
    (fetched : List UnifiedTrack) : SmartQueueState × List UnifiedTrack :=
  if replenishShouldFetch s now queueLen queueIndex then
    if 0 < fetched.length then
      ({ s with
          isAutoQueueFetching := false
          lastAutoQueueFetch := now
          autoQueueError := none
          consecutiveFailures := 0 }, fetched)
    else
      ({ s with
          isAutoQueueFetching := false
          lastAutoQueueFetch := now
          autoQueueError := some "No matching tracks found"
          consecutiveFailures := s.consecutiveFailures + 1 }, [])
  else (s, [])

/-- Progressive-drift seed weight of fetchMoreTracks of the source:
`Math.max(0.3, radioConfig.seedWeight - radioTracksPlayed * 0.02)` when
progressive drift is enabled, the configured weight otherwise. -/
def effectiveSeedWeight (rc : RadioConfig) (radioTracksPlayed : ℕ) : ℚ :=
  if rc.progressiveDrift then
    max 0.3 (rc.seedWeight - (radioTracksPlayed : ℚ) * 0.02)
  else rc.seedWeight

/-- Per-candidate base score of fetchMoreTracks of the source: in radio mode
with a seed, the raw score is blended with the seed relevance using the
effective seed weight; otherwise the raw score is used unchanged.
`rawScore` stands for the ML hybrid or rule-based score supplied by the
other stores. -/
def trackBaseScore (mode : QueueMode) (radioSeed : Option RadioSeed) (rc : RadioConfig)
    (radioTracksPlayed : ℕ) (rawScore : ℚ) (track : UnifiedTrack) : ℚ :=
  match mode, radioSeed with
  | QueueMode.radio, some seed =>
    let seedRelevance := calculateSeedRelevance track seed
    let w := effectiveSeedWeight rc radioTracksPlayed
    rawScore * (1 - w) + seedRelevance * w
  | _, _ => rawScore

/-- Exploration mode of fetchMoreTracks. -/
inductive ExplorationMode where
  | exploit
  | explore
  | balanced
deriving DecidableEq, Repr

/-- Exploration-mode selection of fetchMoreTracks of the source, from the
number of local candidates and the number of discovery candidates (the
source counts similar tracks as discovery):
`discoveryRatio = discoveryCount / Math.max(1, localCount + discoveryCount)`. -/
def explorationMode (localCount discoveryCount : ℕ) : ExplorationMode :=
  let discoveryRatio : ℚ :=
    (discoveryCount : ℚ) / max 1 ((localCount : ℚ) + (discoveryCount : ℚ))
  if 0.6 < discoveryRatio then ExplorationMode.exploit
  else if discoveryRatio < 0.3 then ExplorationMode.explore
  else ExplorationMode.balanced

/-- Modelled from the claim wording of C8: the ratio of discovery candidates
to local candidates, read literally. -/
def specDiscoveryToLocalRatio (localCount discoveryCount : ℕ) : ℚ :=
  (discoveryCount : ℚ) / (localCount : ℚ)

/-- Modelled from the spec wording for session expiry: more than four hours
elapsed since the time of the last activity. -/
def inactivityExpired (lastActivityTime now : ℕ) : Prop :=
  SESSION_TIMEOUT_MS < now - lastActivityTime

/-- Number of distinct main-artist keys among a list of candidate tracks. -/
def distinctArtistCount (tracks : List UnifiedTrack) : ℕ :=
  ((tracks.map mainArtistKey).dedup).length

lemma lookup_val_lt_twelve :
    ∀ (l : List (String × ℕ)), (∀ pr ∈ l, pr.2 < 12) →
      ∀ k p, l.lookup k = some p → p < 12 := by
  intro l
  induction l with
  | nil => intro _ k p h; simp [List.lookup] at h
  | cons hd tl ih =>
    intro hall k p h
    obtain ⟨k1, v1⟩ := hd
    simp only [List.lookup] at h
    split at h
    · have : v1 = p := by injection h
      subst this
      exact hall (k1, v1) (List.mem_cons_self _ _)
    · exact ih (fun pr hpr => hall pr (List.mem_cons_of_mem _ hpr)) k p h

lemma keyPosition_lt_twelve (k : String) (p : ℕ) (h : keyPosition k = some p) : p < 12 := by
  refine lookup_val_lt_twelve KEY_POSITIONS ?_ k p h
  decide

lemma circleDistanceSpec_eq_code (p1 p2 : ℕ) (h1 : p1 < 12) (h2 : p2 < 12) :
    circleDistanceSpec p1 p2 = min |(p1 : ℤ) - (p2 : ℤ)| (12 - |(p1 : ℤ) - (p2 : ℤ)|) := by
  unfold circleDistanceSpec
  rcases abs_cases ((p1 : ℤ) - (p2 : ℤ)) with ⟨he, hx⟩ | ⟨he, hx⟩ <;> rw [he] <;> omega

/-- C1: for every pair of musical keys present in the key-position table,
calculateKeyCompatibility equals `max 0 (1 - distance * 0.2)` where the
distance is the minimum of the clockwise and counterclockwise step counts
between the two positions among the 12 Circle-of-Fifths positions; in
particular the compatibility of C and G is 0.8. -/
theorem key_compatibility_circle_of_fifths :
    (∀ (k1 k2 : String) (p1 p2 : ℕ),
      keyPosition k1 = some p1 → keyPosition k2 = some p2 →
      calculateKeyCompatibility (some k1) (some k2) =
        max 0 (1 - (circleDistanceSpec p1 p2 : ℚ) * 0.2)) ∧
    calculateKeyCompatibility (some "C") (some "G") = 0.8 := by
  constructor
  · intro k1 k2 p1 p2 h1 h2
    have hp1 := keyPosition_lt_twelve k1 p1 h1
    have hp2 := keyPosition_lt_twelve k2 p2 h2
    simp only [calculateKeyCompatibility, h1, h2]
    rw [circleDistanceSpec_eq_code p1 p2 hp1 hp2]
  · have hC : keyPosition "C" = some 0 := rfl
    have hG : keyPosition "G" = some 1 := rfl
    simp only [calculateKeyCompatibility, hC, hG]
    norm_num

/-- Witness for C1 at the concrete keys C and G (positions 0 and 1). -/
theorem key_compatibility_circle_of_fifths_witness :
    calculateKeyCompatibility (some "C") (some "G") =
      max 0 (1 - (circleDistanceSpec 0 1 : ℚ) * 0.2) :=
  key_compatibility_circle_of_fifths.1 "C" "G" 0 1 (by decide) (by decide)

lemma calculateKeyCompatibility_nonneg (k1 k2 : Option String) :
    0 ≤ calculateKeyCompatibility k1 k2 := by
  rcases k1 with _ | k1 <;> rcases k2 with _ | k2 <;>
    simp only [calculateKeyCompatibility] <;> try norm_num
  cases hp1 : keyPosition k1 <;> cases hp2 : keyPosition k2 <;> simp only [hp1, hp2] <;>
    norm_num

lemma round_keyCompat_nonneg (k1 k2 : String) :
    (0 : ℚ) ≤ ((round (calculateKeyCompatibility (some k1) (some k2) * 10) : ℤ) : ℚ) := by
  have h0 : (0 : ℚ) ≤ calculateKeyCompatibility (some k1) (some k2) * 10 :=
    mul_nonneg (calculateKeyCompatibility_nonneg _ _) (by norm_num)
  have h1 : (0 : ℤ) ≤ round (calculateKeyCompatibility (some k1) (some k2) * 10) := by
    rw [round_eq]
    exact Int.floor_nonneg.mpr (by linarith)
  exact_mod_cast h1

lemma bpmBonus_nonneg (s t : ℚ) : 0 ≤ bpmBonus s t := by
  simp only [bpmBonus]
  split_ifs <;> norm_num

lemma energyBonus_nonneg (s t : ℚ) : 0 ≤ energyBonus s t := by
  simp only [energyBonus]
  split_ifs <;> norm_num

lemma valenceBonus_nonneg (s t : ℚ) : 0 ≤ valenceBonus s t := by
  simp only [valenceBonus]
  split_ifs <;> norm_num

lemma audioBonus_nonneg (track : UnifiedTrack) (sf : AudioFeatureSet) :
    0 ≤ audioBonus track sf := by
  simp only [audioBonus]
  refine add_nonneg (add_nonneg (add_nonneg ?_ ?_) ?_) ?_
  · cases sf.bpm <;> cases (track.audioFeatures.getD emptyFeatures).bpm <;>
      first
      | exact bpmBonus_nonneg _ _
      | norm_num
  · cases sf.energy <;> cases (track.audioFeatures.getD emptyFeatures).energy <;>
      first
      | exact energyBonus_nonneg _ _
      | norm_num
  · cases sf.key <;> cases (track.audioFeatures.getD emptyFeatures).key <;>
      first
      | exact round_keyCompat_nonneg _ _
      | norm_num
  · cases sf.valence <;> cases (track.audioFeatures.getD emptyFeatures).valence <;>
      first
      | exact valenceBonus_nonneg _ _
      | norm_num

lemma metadataRelevance_nonneg (track : UnifiedTrack) (seed : RadioSeed) :
    0 ≤ metadataRelevance track seed := by
  unfold metadataRelevance
  cases seed.type <;> split_ifs <;> norm_num

lemma audioBonus_no_track_features (track : UnifiedTrack) (sf : AudioFeatureSet)
    (h : track.audioFeatures = none) : audioBonus track sf = 0 := by
  simp only [audioBonus, h, Option.getD_none]
  cases sf.bpm <;> cases sf.energy <;> cases sf.key <;> cases sf.valence <;>
    simp [emptyFeatures]

/-- Example track with no audio features, used as the C10 witness input. -/
def exNoAudioTrack : UnifiedTrack :=
  { id := "w", title := "W", artists := [], genres := ["rock"], audioFeatures := none }

/-- Example genre seed with no audio features, used as the C10 witness input. -/
def exGenreSeed : RadioSeed :=
  { type := RadioSeedType.genre, id := "rock", name := "Rock", genres := [],
    artistIds := [], audioFeatures := none }

/-- C10: for every track and radio seed, calculateSeedRelevance lies in
[0, 100]: the metadata part and every audio-feature contribution are
non-negative and the total is capped at 100; when the seed or the track
lacks audio features the result is the capped metadata relevance alone, so
it depends only on artist and genre metadata matches. -/
theorem seed_relevance_bounds :
    ∀ (track : UnifiedTrack) (seed : RadioSeed),
      0 ≤ metadataRelevance track seed ∧
      (∀ sf : AudioFeatureSet, 0 ≤ audioBonus track sf) ∧
      0 ≤ calculateSeedRelevance track seed ∧
      calculateSeedRelevance track seed ≤ 100 ∧
      ((seed.audioFeatures = none ∨ track.audioFeatures = none) →
        calculateSeedRelevance track seed = min 100 (metadataRelevance track seed)) := by
  intro track seed
  have hm := metadataRelevance_nonneg track seed
  have ha : ∀ sf, 0 ≤ audioBonus track sf := fun sf => audioBonus_nonneg track sf
  refine ⟨hm, ha, ?_, ?_, ?_⟩
  · unfold calculateSeedRelevance
    refine le_min (by norm_num) ?_
    cases h : seed.audioFeatures with
    | none => simpa using hm
    | some sf => exact add_nonneg hm (ha sf)
  · exact min_le_left _ _
  · intro hor
    rcases hor with h | h
    · simp only [calculateSeedRelevance, h, add_zero]
    · cases hs : seed.audioFeatures with
      | none => simp only [calculateSeedRelevance, hs, add_zero]
      | some sf =>
        simp only [calculateSeedRelevance, hs, audioBonus_no_track_features track sf h,
          add_zero]

/-- Witness for C10 at a concrete track and seed without audio features. -/
theorem seed_relevance_bounds_witness :
    calculateSeedRelevance exNoAudioTrack exGenreSeed =
      min 100 (metadataRelevance exNoAudioTrack exGenreSeed) :=
  (seed_relevance_bounds exNoAudioTrack exGenreSeed).2.2.2.2 (Or.inl rfl)

/-- Example seed with bpm 120, used as the C3 witness input. -/
def bpmExSeed : RadioSeed :=
  { type := RadioSeedType.track, id := "s", name := "S", genres := [], artistIds := [],
    audioFeatures := some { bpm := some 120, energy := none, key := none, valence := none } }

/-- Example candidate with bpm 125, used as the C3 witness input. -/
def bpmExTrack : UnifiedTrack :=
  { id := "t", title := "T", artists := [], genres := [],
    audioFeatures := some { bpm := some 125, energy := none, key := none, valence := none } }

/-- C3: when seed and track both define a bpm, the BPM component of the
audio bonus is +12 whenever `min (|seedBpm - trackBpm| / seedBpm) 1 ≤ 0.1`
(stated for positive seed bpm, where rational division agrees with the
floating-point division of the source); in particular a seed at 120 bpm and
a candidate at 125 bpm (ratio 1/24) get the +12 bonus, and with no other
matching signal the whole seed relevance is exactly 12. -/
theorem bpm_bonus_within_ten_percent :
    (∀ seedBpm trackBpm : ℚ, 0 < seedBpm →
      min (|seedBpm - trackBpm| / seedBpm) 1 ≤ 0.1 →
      bpmBonus seedBpm trackBpm = 12) ∧
    min (|(120 : ℚ) - 125| / 120) 1 ≤ 0.1 ∧
    calculateSeedRelevance bpmExTrack bpmExSeed = 12 := by
  refine ⟨?_, ?_, ?_⟩
  · intro s t _ h
    simp only [bpmBonus]
    rw [if_pos h]
  · have h5 : |(120 : ℚ) - 125| = 5 := by norm_num [abs]
    rw [h5]
    norm_num
  · have h5 : |(120 : ℚ) - 125| = 5 := by norm_num [abs]
    simp only [calculateSeedRelevance, metadataRelevance, bpmExSeed, bpmExTrack,
      seedArtistMatch, seedGenreMatch, audioBonus, bpmBonus, emptyFeatures,
      Option.getD_some, List.any_nil, h5]
    norm_num

/-- Witness for C3 at seed bpm 120 and track bpm 125. -/
theorem bpm_bonus_within_ten_percent_witness :
    bpmBonus 120 125 = 12 :=
  bpm_bonus_within_ten_percent.1 120 125 (by norm_num)
    (by
      have h5 : |(120 : ℚ) - 125| = 5 := by norm_num [abs]
      rw [h5]
      norm_num)

/-- C4: in radio mode with progressive drift enabled, every candidate's
base score is `rawScore * (1 - w) + seedRelevance * w` with
`w = max 0.3 (seedWeight - 0.02 * radioTracksPlayed)`; the weight is
non-increasing in the number of radio tracks played, never drops below
0.3, and the default seed weight is 0.7. -/
theorem radio_progressive_drift :
    ∀ (rc : RadioConfig) (played : ℕ) (raw : ℚ) (track : UnifiedTrack) (seed : RadioSeed),
      rc.progressiveDrift = true →
      (trackBaseScore QueueMode.radio (some seed) rc played raw track =
        raw * (1 - max 0.3 (rc.seedWeight - 0.02 * (played : ℚ))) +
          calculateSeedRelevance track seed *
            max 0.3 (rc.seedWeight - 0.02 * (played : ℚ))) ∧
      (∀ p1 p2 : ℕ, p1 ≤ p2 → effectiveSeedWeight rc p2 ≤ effectiveSeedWeight rc p1) ∧
      0.3 ≤ effectiveSeedWeight rc played ∧
      DEFAULT_RADIO_CONFIG.seedWeight = 0.7 := by
  intro rc played raw track seed hdrift
  refine ⟨?_, ?_, ?_, rfl⟩
  · simp only [trackBaseScore, effectiveSeedWeight, hdrift, if_true]
    rw [mul_comm (0.02 : ℚ) (played : ℚ)]
  · intro p1 p2 hp
    simp only [effectiveSeedWeight, hdrift, if_true]
    have hc : (p1 : ℚ) ≤ (p2 : ℚ) := by exact_mod_cast hp
    have hm : (p1 : ℚ) * 0.02 ≤ (p2 : ℚ) * 0.02 := by nlinarith
    exact max_le_max le_rfl (by linarith)
  · simp only [effectiveSeedWeight, hdrift, if_true]
    exact le_max_left _ _

/-- Witness for C4: with the default radio configuration and 25 radio
tracks played, the effective seed weight has already hit the 0.3 floor. -/
theorem radio_progressive_drift_witness :
    0.3 ≤ effectiveSeedWeight DEFAULT_RADIO_CONFIG 25 :=
  (radio_progressive_drift DEFAULT_RADIO_CONFIG 25 0 exNoAudioTrack exGenreSeed rfl).2.2.1

/-- Fresh store state used as the base of the concrete scenarios. -/
def cexBaseState : SmartQueueState :=
  { mode := QueueMode.manual
    radioSeed := none
    radioTracksPlayed := 0
    sessionHistory := { playedTrackIds := [], playedArtistIds := [], sessionStartTime := 0 }
    isAutoQueueFetching := false
    lastAutoQueueFetch := 0
    autoQueueError := none
    consecutiveFailures := 0
    config := DEFAULT_CONFIG
    radioConfig := DEFAULT_RADIO_CONFIG }

/-- Concrete track used in the session-history scenarios. -/
def cexPlayedTrack : UnifiedTrack :=
  { id := "track-1", title := "Track 1",
    artists := [{ id := "artist-1", name := "Artist" }],
    genres := [], audioFeatures := none }

/-- Counterexample to C5 as stated: in a session started at time 0, a track
is recorded — the last activity — at 14,400,000 ms, and resetSession at
14,400,001 ms still clears the session, although only 1 ms (far less than
four hours) passed since that activity.  recordTrackPlayed never refreshes
`sessionStartTime`, so clearing is governed by the time since the session
start, not by inactivity. -/
theorem reset_session_ignores_activity :
    (resetSession 14400001
        (recordTrackPlayed cexPlayedTrack cexBaseState)).sessionHistory.playedTrackIds = [] ∧
    (recordTrackPlayed cexPlayedTrack cexBaseState).sessionHistory.playedTrackIds =
      ["track-1"] ∧
    ¬ inactivityExpired 14400000 14400001 := by
  refine ⟨by decide, by decide, ?_⟩
  unfold inactivityExpired SESSION_TIMEOUT_MS
  omega

/-- C5 as amended: resetSession clears the session (track and artist ids
emptied, session start time renewed, radio counter reset) exactly when more
than four hours have elapsed since the recorded session start time — which
activity does not refresh — and clearSession always clears it. -/
theorem reset_session_timeout :
    ∀ (s : SmartQueueState) (now : ℕ),
      (SESSION_TIMEOUT_MS < now - s.sessionHistory.sessionStartTime →
        resetSession now s = clearSession now s) ∧
      (¬ SESSION_TIMEOUT_MS < now - s.sessionHistory.sessionStartTime →
        resetSession now s = s) ∧
      (clearSession now s).sessionHistory.playedTrackIds = [] ∧
      (clearSession now s).sessionHistory.playedArtistIds = [] ∧
      (clearSession now s).sessionHistory.sessionStartTime = now ∧
      (clearSession now s).radioTracksPlayed = 0 := by
  intro s now
  refine ⟨fun h => ?_, fun h => ?_, rfl, rfl, rfl, rfl⟩
  · simp [resetSession, h]
  · simp [resetSession, h]

/-- Witness for C5 (amended): a session started at time 0 is cleared at
14,400,001 ms. -/
theorem reset_session_timeout_witness :
    resetSession 14400001 cexBaseState = clearSession 14400001 cexBaseState :=
  (reset_session_timeout cexBaseState 14400001).1 (by decide)

/-- C7: from any state within the 200-track / 400-artist bounds,
recordTrackPlayed keeps both session-history lists within the bounds, and
each resulting list is a suffix of the old list with the new entries
appended — so the oldest entries are the ones dropped. -/
theorem record_track_played_bounds :
    ∀ (s : SmartQueueState) (track : UnifiedTrack),
      s.sessionHistory.playedTrackIds.length ≤ 200 →
      s.sessionHistory.playedArtistIds.length ≤ 400 →
      (recordTrackPlayed track s).sessionHistory.playedTrackIds.length ≤ 200 ∧
      (recordTrackPlayed track s).sessionHistory.playedArtistIds.length ≤ 400 ∧
      (recordTrackPlayed track s).sessionHistory.playedTrackIds <:+
        s.sessionHistory.playedTrackIds ++ [track.id] ∧
      (recordTrackPlayed track s).sessionHistory.playedArtistIds <:+
        s.sessionHistory.playedArtistIds ++ track.artists.map artistHistoryKey := by
  intro s track h1 h2
  refine ⟨?_, ?_, ?_, ?_⟩
  · simp only [recordTrackPlayed, sliceLast, MAX_SESSION_HISTORY, List.length_drop]
    omega
  · simp only [recordTrackPlayed, sliceLast, MAX_SESSION_HISTORY, List.length_drop]
    omega
  · simp only [recordTrackPlayed, sliceLast]
    exact List.drop_suffix _ _
  · simp only [recordTrackPlayed, sliceLast]
    exact List.drop_suffix _ _

/-- Witness for C7 on a fresh session and a concrete track. -/
theorem record_track_played_bounds_witness :
    (recordTrackPlayed cexPlayedTrack cexBaseState).sessionHistory.playedTrackIds.length ≤
      200 :=
  (record_track_played_bounds cexBaseState cexPlayedTrack (by decide) (by decide)).1

/-- C6: checkAndReplenish never initiates a fetch when the mode is manual,
when auto-queue is disabled and the mode is not radio, when a fetch is
already in flight, when fewer than MIN_FETCH_INTERVAL_MS (5 s) elapsed since
the last fetch, or when the number of remaining queued tracks exceeds the
configured threshold; whenever the guard chain says no, the state and the
queue are left untouched; the default threshold is 2. -/
theorem replenish_guards :
    ∀ (s : SmartQueueState) (now queueLen queueIndex : ℕ),
      (s.mode = QueueMode.manual → replenishShouldFetch s now queueLen queueIndex = false) ∧
      (s.config.autoQueueEnabled = false → s.mode ≠ QueueMode.radio →
        replenishShouldFetch s now queueLen queueIndex = false) ∧
      (s.isAutoQueueFetching = true →
        replenishShouldFetch s now queueLen queueIndex = false) ∧
      (now - s.lastAutoQueueFetch < MIN_FETCH_INTERVAL_MS →
        replenishShouldFetch s now queueLen queueIndex = false) ∧
      ((s.config.autoQueueThreshold : ℤ) < (queueLen : ℤ) - (queueIndex : ℤ) - 1 →
        replenishShouldFetch s now queueLen queueIndex = false) ∧
      (replenishShouldFetch s now queueLen queueIndex = false →
        ∀ fetched, checkAndReplenish s now queueLen queueIndex fetched = (s, [])) ∧
      DEFAULT_CONFIG.autoQueueThreshold = 2 := by
  intro s now queueLen queueIndex
  refine ⟨fun h => ?_, fun h1 h2 => ?_, fun h => ?_, fun h => ?_, fun h => ?_,
    fun h fetched => ?_, rfl⟩
  · simp [replenishShouldFetch, h]
  · unfold replenishShouldFetch
    split_ifs <;> simp_all
  · unfold replenishShouldFetch
    split_ifs <;> simp_all
  · unfold replenishShouldFetch
    split_ifs <;> simp_all
  · unfold replenishShouldFetch
    split_ifs <;> simp_all
    omega
  · simp [checkAndReplenish, h]

/-- Witness for C6: in manual mode no fetch fires and checkAndReplenish is
the identity on a fresh state. -/
theorem replenish_guards_witness :
    replenishShouldFetch cexBaseState 0 0 0 = false :=
  (replenish_guards cexBaseState 0 0 0).1 rfl

/-- C9: when the guard chain lets a replenishment through and the fetch
yields zero candidates, checkAndReplenish sets autoQueueError to
"No matching tracks found", increments consecutiveFailures by exactly one,
clears the fetching flag, records the fetch time, adds no tracks, and any
retry within MIN_FETCH_INTERVAL_MS of that recorded time is a no-op — the
rate limit bounds retries.  The embedded step is total: no branch throws. -/
theorem replenish_no_candidates :
    ∀ (s : SmartQueueState) (now queueLen queueIndex : ℕ),
      replenishShouldFetch s now queueLen queueIndex = true →
      ((checkAndReplenish s now queueLen queueIndex []).1.autoQueueError =
        some "No matching tracks found") ∧
      ((checkAndReplenish s now queueLen queueIndex []).1.consecutiveFailures =
        s.consecutiveFailures + 1) ∧
      ((checkAndReplenish s now queueLen queueIndex []).1.isAutoQueueFetching = false) ∧
      ((checkAndReplenish s now queueLen queueIndex []).1.lastAutoQueueFetch = now) ∧
      ((checkAndReplenish s now queueLen queueIndex []).2 = []) ∧
      (∀ now2, now2 - now < MIN_FETCH_INTERVAL_MS → ∀ fetched,
        checkAndReplenish (checkAndReplenish s now queueLen queueIndex []).1
            now2 queueLen queueIndex fetched =
          ((checkAndReplenish s now queueLen queueIndex []).1, [])) := by
  intro s now qL qI h
  have hstep : checkAndReplenish s now qL qI [] =
      ({ s with
          isAutoQueueFetching := false
          lastAutoQueueFetch := now
          autoQueueError := some "No matching tracks found"
          consecutiveFailures := s.consecutiveFailures + 1 }, []) := by
    simp [checkAndReplenish, h]
  refine ⟨by rw [hstep], by rw [hstep], by rw [hstep], by rw [hstep], by rw [hstep],
    fun now2 hn fetched => ?_⟩
  rw [hstep]
  have hguard : replenishShouldFetch
      { s with
          isAutoQueueFetching := false
          lastAutoQueueFetch := now
          autoQueueError := some "No matching tracks found"
          consecutiveFailures := s.consecutiveFailures + 1 } now2 qL qI = false := by
    unfold replenishShouldFetch
    split_ifs <;> simp_all
  simp [checkAndReplenish, hguard]

/-- Radio-mode state that passes every replenishment guard at time 5000
with one queued track at index 0. -/
def radioReplenishState : SmartQueueState :=
  { cexBaseState with mode := QueueMode.radio }

/-- Witness for C9 on a concrete radio-mode state and an empty fetch. -/
theorem replenish_no_candidates_witness :
    (checkAndReplenish radioReplenishState 5000 1 0 []).1.autoQueueError =
      some "No matching tracks found" :=
  (replenish_no_candidates radioReplenishState 5000 1 0 (by decide)).1

/-- Counterexample to C8 as stated: with 1 local and 1 discovery candidate
the literal discovery-to-local ratio is 1, which exceeds 0.6, yet the code
picks the balanced mode, because it divides the discovery count by the
total candidate count (1/2 here), not by the local count. -/
theorem exploration_mode_literal_ratio_cex :
    explorationMode 1 1 = ExplorationMode.balanced ∧
    0.6 < specDiscoveryToLocalRatio 1 1 ∧
    ExplorationMode.balanced ≠ ExplorationMode.exploit := by
  refine ⟨?_, ?_, by decide⟩
  · norm_num [explorationMode]
  · norm_num [specDiscoveryToLocalRatio]

/-- C8 as amended: the exploration mode is chosen from the share of
discovery candidates among all candidates found,
`discoveryCount / max 1 (localCount + discoveryCount)`: exploit above 0.6,
explore below 0.3, balanced otherwise. -/
theorem exploration_mode_thresholds :
    ∀ localCount discoveryCount : ℕ,
      (explorationMode localCount discoveryCount = ExplorationMode.exploit ↔
        0.6 < (discoveryCount : ℚ) / max 1 ((localCount : ℚ) + (discoveryCount : ℚ))) ∧
      (explorationMode localCount discoveryCount = ExplorationMode.explore ↔
        (discoveryCount : ℚ) / max 1 ((localCount : ℚ) + (discoveryCount : ℚ)) < 0.3) ∧
      (explorationMode localCount discoveryCount = ExplorationMode.balanced ↔
        (0.3 ≤ (discoveryCount : ℚ) / max 1 ((localCount : ℚ) + (discoveryCount : ℚ)) ∧
          (discoveryCount : ℚ) / max 1 ((localCount : ℚ) + (discoveryCount : ℚ)) ≤ 0.6)) := by
  intro l d
  simp only [explorationMode]
  split_ifs with h1 h2
  · exact ⟨iff_of_true rfl h1, iff_of_false not_false (by linarith),
      iff_of_false not_false (fun hcon => (not_lt.mpr hcon.2) h1)⟩
  · exact ⟨iff_of_false not_false h1, iff_of_true rfl h2,
      iff_of_false not_false (fun hcon => (not_lt.mpr hcon.1) h2)⟩
  · exact ⟨iff_of_false not_false h1, iff_of_false not_false h2,
      iff_of_true rfl ⟨not_lt.mp h2, not_lt.mp h1⟩⟩

lemma artistCount_nil (a : String) : artistCount [] a = 0 := rfl

lemma artistCount_append (l1 l2 : List UnifiedTrack) (a : String) :
    artistCount (l1 ++ l2) a = artistCount l1 a + artistCount l2 a := by
  simp [artistCount, List.count_append]

lemma artistCount_cons (t : UnifiedTrack) (l : List UnifiedTrack) (a : String) :
    artistCount (t :: l) a = artistCount l a + (if mainArtistKey t = a then 1 else 0) := by
  simp [artistCount, List.count_cons]

lemma artistCount_singleton (t : UnifiedTrack) (a : String) :
    artistCount [t] a = if mainArtistKey t = a then 1 else 0 := by
  simp [artistCount_cons, artistCount_nil]

lemma diversityLoop_cap (limit maxPer : ℕ) :
    ∀ (ts result : List UnifiedTrack) (counts : String → ℕ),
      (∀ a, counts a = artistCount result a) →
      (∀ a, artistCount result a ≤ maxPer) →
      ∀ a, artistCount (diversityLoop limit maxPer ts result counts) a ≤ maxPer := by
  intro ts
  induction ts with
  | nil =>
    intro result counts _ hcap a
    simpa [diversityLoop] using hcap a
  | cons t ts ih =>
    intro result counts hsync hcap a
    simp only [diversityLoop]
    split
    · exact hcap a
    · split
      · rename_i hlen hc
        apply ih
        · intro b
          rcases eq_or_ne b (mainArtistKey t) with hb | hb
          · subst hb
            rw [if_pos rfl, artistCount_append, artistCount_singleton, if_pos rfl,
              hsync (mainArtistKey t)]
          · rw [if_neg hb, artistCount_append, artistCount_singleton,
              if_neg (fun h => hb h.symm), hsync b, Nat.add_zero]
        · intro b
          rcases eq_or_ne b (mainArtistKey t) with hb | hb
          · subst hb
            rw [artistCount_append, artistCount_singleton, if_pos rfl]
            have h1 := hsync (mainArtistKey t)
            omega
          · rw [artistCount_append, artistCount_singleton,
              if_neg (fun h => hb h.symm), Nat.add_zero]
            exact hcap b
      · exact ih result counts hsync hcap a

lemma diversityLoop_fill (limit maxPer : ℕ) :
    ∀ (ts result : List UnifiedTrack) (counts : String → ℕ),
      (∀ a, counts a = artistCount result a) →
      (∀ a, artistCount result a ≤ maxPer) →
      result.length ≤ limit →
      (diversityLoop limit maxPer ts result counts).length = limit ∨
      (∀ a, artistCount (diversityLoop limit maxPer ts result counts) a =
        min maxPer (artistCount result a + artistCount ts a)) := by
  intro ts
  induction ts with
  | nil =>
    intro result counts hsync hcap hlen
    right
    intro a
    have h1 := hcap a
    simp only [diversityLoop, artistCount_nil, Nat.add_zero]
    omega
  | cons t ts ih =>
    intro result counts hsync hcap hlen
    simp only [diversityLoop]
    split
    · rename_i hbreak
      left
      omega
    · rename_i hbreak
      split
      · rename_i hc
        have hsync2 : ∀ b,
            (fun a => if a = mainArtistKey t then counts (mainArtistKey t) + 1 else counts a) b =
              artistCount (result ++ [t]) b := by
          intro b
          rcases eq_or_ne b (mainArtistKey t) with hb | hb
          · subst hb
            rw [artistCount_append, artistCount_singleton]
            simp [hsync (mainArtistKey t)]
          · rw [artistCount_append, artistCount_singleton]
            simp [hb, hsync b]
            exact fun h => hb (Eq.symm h)
        have hcap2 : ∀ b, artistCount (result ++ [t]) b ≤ maxPer := by
          intro b
          rcases eq_or_ne b (mainArtistKey t) with hb | hb
          · subst hb
            rw [artistCount_append, artistCount_singleton, if_pos rfl]
            have h1 := hsync (mainArtistKey t)
            omega
          · rw [artistCount_append, artistCount_singleton,
              if_neg (fun h => hb h.symm), Nat.add_zero]
            exact hcap b
        have hlen2 : (result ++ [t]).length ≤ limit := by
          simp only [List.length_append, List.length_singleton]
          omega
        rcases ih (result ++ [t])
            (fun a => if a = mainArtistKey t then counts (mainArtistKey t) + 1 else counts a)
            hsync2 hcap2 hlen2 with hl | hr
        · left
          exact hl
        · right
          intro a
          rw [hr a, artistCount_append, artistCount_singleton, artistCount_cons]
          by_cases hb : mainArtistKey t = a
          · simp only [hb, if_pos rfl]
            omega
          · simp [hb]
      · rename_i hc
        rcases ih result counts hsync hcap hlen with hl | hr
        · left
          exact hl
        · right
          intro a
          rw [hr a, artistCount_cons]
          by_cases hb : mainArtistKey t = a
          · subst hb
            rw [if_pos rfl]
            have h1 := hsync (mainArtistKey t)
            have h2 := hcap (mainArtistKey t)
            omega
          · rw [if_neg hb, Nat.add_zero]

lemma diversityPass_cap (tracks : List UnifiedTrack) (limit k : ℕ) :
    ∀ a, artistCount (diversityPass tracks limit k) a ≤ k :=
  diversityLoop_cap limit k tracks [] (fun _ => 0)
    (fun _ => rfl)
    (fun a => by rw [artistCount_nil]; exact Nat.zero_le k)

lemma diversityPass_counts (tracks : List UnifiedTrack) (limit k : ℕ) :
    (diversityPass tracks limit k).length = limit ∨
    (∀ a, artistCount (diversityPass tracks limit k) a = min k (artistCount tracks a)) := by
  rcases diversityLoop_fill limit k tracks [] (fun _ => 0)
      (fun _ => rfl)
      (fun a => by rw [artistCount_nil]; exact Nat.zero_le k)
      (Nat.zero_le _) with hl | hr
  · left
    exact hl
  · right
    intro a
    simpa [artistCount_nil] using hr a

lemma diversityPass_length_ge (tracks : List UnifiedTrack) (limit k : ℕ)
    (h : ∀ a ∈ tracks.map mainArtistKey, k ≤ artistCount tracks a) :
    min limit (k * distinctArtistCount tracks) ≤ (diversityPass tracks limit k).length := by
  rcases diversityPass_counts tracks limit k with hl | hr
  · rw [hl]
    exact min_le_left _ _
  · rcases Nat.eq_zero_or_pos k with hk | hk
    · subst hk
      simp
    · have hcnt : ∀ a ∈ tracks.map mainArtistKey,
          artistCount (diversityPass tracks limit k) a = k := by
        intro a ha
        rw [hr a]
        exact min_eq_left (h a ha)
      have hmem : ∀ a, a ∈ (diversityPass tracks limit k).map mainArtistKey ↔
          a ∈ tracks.map mainArtistKey := by
        intro a
        constructor
        · intro hp
          have hpos : 0 < artistCount (diversityPass tracks limit k) a :=
            List.count_pos_iff.mpr hp
          rw [hr a] at hpos
          have hpos2 : 0 < artistCount tracks a := by omega
          exact List.count_pos_iff.mp hpos2
        · intro hp
          have he := hcnt a hp
          have hpos : 0 < artistCount (diversityPass tracks limit k) a := by omega
          exact List.count_pos_iff.mp hpos
      have hfin : ((diversityPass tracks limit k).map mainArtistKey).toFinset =
          (tracks.map mainArtistKey).toFinset := by
        ext a
        simp only [List.mem_toFinset]
        exact hmem a
      have hsum := Multiset.toFinset_sum_count_eq
        (↑((diversityPass tracks limit k).map mainArtistKey) : Multiset String)
      have hcard : (Multiset.card
          (↑((diversityPass tracks limit k).map mainArtistKey) : Multiset String)) =
          (diversityPass tracks limit k).length := by
        rw [Multiset.coe_card, List.length_map]
      have htf : ((↑((diversityPass tracks limit k).map mainArtistKey) :
          Multiset String)).toFinset =
          ((diversityPass tracks limit k).map mainArtistKey).toFinset := rfl
      rw [hcard, htf, hfin] at hsum
      have hsum2 : ∑ a ∈ (tracks.map mainArtistKey).toFinset,
          artistCount (diversityPass tracks limit k) a =
          (diversityPass tracks limit k).length := by
        rw [← hsum]
        exact Finset.sum_congr rfl fun a _ => (Multiset.coe_count a _).symm
      have hsum3 : ∑ a ∈ (tracks.map mainArtistKey).toFinset,
          artistCount (diversityPass tracks limit k) a =
          (tracks.map mainArtistKey).toFinset.card * k :=
        (Finset.sum_congr rfl fun a ha => hcnt a (List.mem_toFinset.mp ha)).trans
          (by rw [Finset.sum_const, smul_eq_mul])
      have hD : (tracks.map mainArtistKey).toFinset.card = distinctArtistCount tracks :=
        List.card_toFinset _
      have hlen : (diversityPass tracks limit k).length =
          k * distinctArtistCount tracks := by
        rw [← hsum2, hsum3, hD, Nat.mul_comm]
      rw [hlen]
      exact min_le_right _ _

lemma artistCount_take_le (P : List UnifiedTrack) (n : ℕ) (a : String) :
    artistCount (P.take n) a ≤ artistCount P a := by
  simp only [artistCount, List.map_take]
  exact List.Sublist.count_le (List.take_sublist _ _) a

/-- C2: if the candidate list holds at least k tracks for each of its
distinct main artists, then within the first `min limit (k * distinctArtists)`
entries of applyDiversityFilter no main artist appears more than k times;
and the back-fill step appends tracks only when the cap-respecting pass
selected fewer than `limit` tracks — when the pass already filled the
limit, the filter output is exactly the pass. -/
theorem diversity_filter_cap :
    ∀ (tracks : List UnifiedTrack) (limit k : ℕ),
      ((∀ a ∈ tracks.map mainArtistKey, k ≤ artistCount tracks a) →
        ∀ a, artistCount
          ((applyDiversityFilter tracks limit k).take
            (min limit (k * distinctArtistCount tracks))) a ≤ k) ∧
      (limit ≤ (diversityPass tracks limit k).length →
        applyDiversityFilter tracks limit k = diversityPass tracks limit k) := by
  intro tracks limit k
  constructor
  · intro h a
    by_cases htr : tracks = []
    · subst htr
      simp [applyDiversityFilter, artistCount]
    · have hge := diversityPass_length_ge tracks limit k h
      have hcap := diversityPass_cap tracks limit k
      simp only [applyDiversityFilter]
      rw [if_neg htr]
      split
      · rw [List.take_append_of_le_length hge]
        exact le_trans (artistCount_take_le _ _ _) (hcap a)
      · exact le_trans (artistCount_take_le _ _ _) (hcap a)
  · intro hlim
    by_cases htr : tracks = []
    · subst htr
      simp [applyDiversityFilter, diversityPass, diversityLoop]
    · simp only [applyDiversityFilter]
      rw [if_neg htr, if_neg (not_lt.mpr hlim)]

/-- Candidate list for the C2 witness: two artists with two tracks each. -/
def cexDivTracks : List UnifiedTrack :=
  [ { id := "1", title := "t1", artists := [{ id := "", name := "A" }],
      genres := [], audioFeatures := none },
    { id := "2", title := "t2", artists := [{ id := "", name := "A" }],
      genres := [], audioFeatures := none },
    { id := "3", title := "t3", artists := [{ id := "", name := "B" }],
      genres := [], audioFeatures := none },
    { id := "4", title := "t4", artists := [{ id := "", name := "B" }],
      genres := [], audioFeatures := none } ]

/-- Witness for C2: two artists with two tracks each, batch limit 3,
cap 2. -/
theorem diversity_filter_cap_witness :
    artistCount ((applyDiversityFilter cexDivTracks 3 2).take
      (min 3 (2 * distinctArtistCount cexDivTracks))) "a" ≤ 2 :=
  (diversity_filter_cap cexDivTracks 3 2).1 (by decide) "a"

end SmartQueue
